import Mathlib

/-!
Verification of the SaaS Starter backend (`src/main.py`): a FastAPI CRUD
service for a single `project` collection over a document store.

Modelling conventions:
  * JSON / BSON values are the inductive `Value`; a stored document is an
    association list `Doc` in insertion order (Python dicts preserve
    insertion order and have unique keys).
  * The Mongo collection is a `Store` (list of documents, iteration order),
    each document carrying its `_id` field.
  * Request bodies are records whose fields are `Option (Option String)`:
    `none` = field absent from the JSON body, `some none` = explicit
    `null`, `some (some s)` = a string value.  Pydantic validation is an
    explicit function run before the handler (as FastAPI does).
  * The server clock (`datetime.now(timezone.utc)`) is a `Nat` parameter
    `now`; `isoformatOf` models `datetime.isoformat`.
  * Each handler also returns the list of store operations it performed,
    so "never reaches the store" is the trace being `[]`.
-/

namespace SaaS

/-- A JSON/BSON value as it appears in stored documents and request
payloads: `null`, strings, ObjectIds, datetimes (the only values with an
`isoformat` attribute in this program) and booleans. -/
inductive Value where
  | vNull
  | vStr (s : String)
  | vOid (hex : String)
  | vDatetime (t : Nat)
  | vBool (b : Bool)
deriving DecidableEq, Repr

/-- A stored document / Python dict: association list in insertion order. -/
abbrev Doc := List (String × Value)

/-- The `project` collection: documents in store iteration order. -/
abbrev Store := List Doc

/-- Model of `datetime.isoformat()`: an injective rendering of the
timestamp as an ISO-8601 string (the concrete text is opaque library
behaviour). -/
def isoformatOf (t : Nat) : String := "1970-01-01T00:00:" ++ toString t ++ "+00:00"

/-- Model of Python `str` on a value; `str(ObjectId)` is its 24-hex text. -/
def pyStr : Value → String
  | .vNull => "None"
  | .vStr s => s
  | .vOid h => h
  | .vDatetime t => "datetime " ++ toString t
  | .vBool b => if b then "True" else "False"

/-- Keys of a document, in order (Python `dict.keys()`). -/
def keysOf (d : Doc) : List String := d.map Prod.fst

/-- First-occurrence lookup, Python `d.get(k)` / `d[k]`. -/
def getVal (k : String) : Doc → Option Value
  | [] => none
  | (k', v') :: rest => if k' = k then some v' else getVal k rest

/-- Python `d[k] = v`: replace the value in place if the key exists,
otherwise append the new key at the end. -/
def setKey : Doc → String → Value → Doc
  | [], k, v => [(k, v)]
  | (k', v') :: rest, k, v =>
    if k' = k then (k, v) :: rest else (k', v') :: setKey rest k v

/-- Python `d.pop(k, None)` (the removal part): drop the first occurrence
of the key. -/
def eraseKey (k : String) : Doc → Doc
  | [] => []
  | (k', v') :: rest => if k' = k then rest else (k', v') :: eraseKey k rest

/-- Mongo `$set` of a patch: apply each patch entry with `setKey`. -/
def applySet (d : Doc) (patch : Doc) : Doc :=
  patch.foldl (fun acc kv => setKey acc kv.1 kv.2) d

/-- The body of the serialization loop of `serialize_doc`: a value with an
`isoformat` attribute (a datetime) is rendered as its ISO-8601 string,
every other value passes through unchanged. -/
def convertVal : Value → Value
  | .vDatetime t => .vStr (isoformatOf t)
  | v => v

/-- Core of `serialize_doc` on a non-empty dict (`src/main.py` lines
40-51): pop `_id`, expose it as the string field `id` when it was not
`None`, then convert every datetime value to its isoformat. -/
def serializeCore (doc : Doc) : Doc :=
  let popped := getVal "_id" doc
  let d := eraseKey "_id" doc
  let d := match popped with
    | some v => if v ≠ Value.vNull then setKey d "id" (.vStr (pyStr v)) else d
    | none => d
  d.map fun p => (p.1, convertVal p.2)

/-- `serialize_doc` (`src/main.py` lines 37-51).  A falsy input — `None`
or the empty dict — is returned unchanged. -/
def serialize_doc : Option Doc → Option Doc
  | none => none
  | some d => if d.isEmpty then some d else some (serializeCore d)

/-! ### Association-list lemmas -/

theorem getVal_setKey_self (d : Doc) (k : String) (v : Value) :
    getVal k (setKey d k v) = some v := by
  induction d with
  | nil => simp [setKey, getVal]
  | cons p rest ih =>
    obtain ⟨k1, v1⟩ := p
    by_cases h : k1 = k
    · simp [setKey, getVal, h]
    · simp [setKey, getVal, h, ih]

theorem getVal_setKey_ne (d : Doc) (k k' : String) (v : Value) (h : k' ≠ k) :
    getVal k' (setKey d k v) = getVal k' d := by
  have h' : k ≠ k' := Ne.symm h
  induction d with
  | nil => simp [setKey, getVal, h']
  | cons p rest ih =>
    obtain ⟨k1, v1⟩ := p
    by_cases hp : k1 = k
    · subst hp; simp [setKey, getVal, h']
    · simp [setKey, getVal, hp, ih]

theorem getVal_eraseKey_ne (d : Doc) (k k' : String) (h : k' ≠ k) :
    getVal k' (eraseKey k d) = getVal k' d := by
  have h' : k ≠ k' := Ne.symm h
  induction d with
  | nil => simp [eraseKey]
  | cons p rest ih =>
    obtain ⟨k1, v1⟩ := p
    by_cases hp : k1 = k
    · subst hp; simp [eraseKey, getVal, h']
    · simp [eraseKey, getVal, hp, ih]

theorem getVal_eq_none_of_not_mem (d : Doc) (k : String) (h : k ∉ keysOf d) :
    getVal k d = none := by
  induction d with
  | nil => simp [getVal]
  | cons p rest ih =>
    obtain ⟨k1, v1⟩ := p
    simp only [keysOf, List.map_cons, List.mem_cons, not_or] at h
    have h1 : k1 ≠ k := Ne.symm h.1
    simp [getVal, h1, ih (by simpa [keysOf] using h.2)]

theorem getVal_eraseKey_self (d : Doc) (k : String) (h : (keysOf d).Nodup) :
    getVal k (eraseKey k d) = none := by
  induction d with
  | nil => simp [eraseKey, getVal]
  | cons p rest ih =>
    obtain ⟨k1, v1⟩ := p
    simp only [keysOf, List.map_cons, List.nodup_cons] at h
    by_cases hp : k1 = k
    · subst hp
      simp only [eraseKey, if_pos rfl]
      exact getVal_eq_none_of_not_mem rest k1 (by simpa [keysOf] using h.1)
    · simp [eraseKey, getVal, hp, ih (by simpa [keysOf] using h.2)]

theorem getVal_map_convert (d : Doc) (k : String) :
    getVal k (d.map fun p => (p.1, convertVal p.2)) = (getVal k d).map convertVal := by
  induction d with
  | nil => simp [getVal]
  | cons p rest ih =>
    by_cases hp : p.1 = k
    · simp [getVal, hp]
    · simp [getVal, hp, ih]

theorem getVal_applySet_not_mem (patch : Doc) (d : Doc) (k : String)
    (h : k ∉ keysOf patch) : getVal k (applySet d patch) = getVal k d := by
  induction patch generalizing d with
  | nil => simp [applySet]
  | cons p rest ih =>
    obtain ⟨k1, v1⟩ := p
    simp only [keysOf, List.map_cons, List.mem_cons, not_or] at h
    have hstep : applySet d ((k1, v1) :: rest) = applySet (setKey d k1 v1) rest := rfl
    rw [hstep, ih _ (by simpa [keysOf] using h.2), getVal_setKey_ne _ _ _ _ h.1]

theorem applySet_append (d : Doc) (a b : Doc) :
    applySet d (a ++ b) = applySet (applySet d a) b := by
  simp [applySet, List.foldl_append]

theorem setKey_eq_append_of_not_mem (d : Doc) (k : String) (v : Value)
    (h : k ∉ keysOf d) : setKey d k v = d ++ [(k, v)] := by
  induction d with
  | nil => simp [setKey]
  | cons p rest ih =>
    obtain ⟨k1, v1⟩ := p
    simp only [keysOf, List.map_cons, List.mem_cons, not_or] at h
    have h1 : k1 ≠ k := Ne.symm h.1
    simp [setKey, h1, ih (by simpa [keysOf] using h.2)]

theorem getVal_ne_nil (d : Doc) (k : String) (v : Value) (h : getVal k d = some v) :
    d ≠ [] := by
  intro hnil; subst hnil; simp [getVal] at h

/-! ### Identifier codec, request models and pydantic validation -/

/-- A hexadecimal character (`0-9`, `a-f`, `A-F`). -/
def isHexChar (c : Char) : Bool :=
  decide (('0' ≤ c ∧ c ≤ '9') ∨ ('a' ≤ c ∧ c ≤ 'f') ∨ ('A' ≤ c ∧ c ≤ 'F'))

/-- Model of `bson.ObjectId.is_valid` on a string: exactly 24 hexadecimal
characters. -/
def objectId_is_valid (s : String) : Bool :=
  s.length == 24 && s.data.all isHexChar

/-- A request-body field of type `Optional[str]`: `none` if the key is
absent from the JSON body, `some none` for an explicit `null`,
`some (some s)` for a string. -/
abbrev JField := Option (Option String)

/-- Raw JSON body for `POST /api/projects` (before pydantic validation). -/
structure ProjectCreateB where
  name : JField
  description : JField
  status : JField
  owner_email : JField
  due_date : JField
deriving DecidableEq, Repr

/-- Raw JSON body for `PUT /api/projects/id` (the `ProjectUpdate` model
keeps track of which fields were explicitly set). -/
structure ProjectUpdateB where
  name : JField
  description : JField
  status : JField
  owner_email : JField
  due_date : JField
deriving DecidableEq, Repr

/-- A validated `ProjectCreate` pydantic model instance. -/
structure ProjectCreateM where
  name : String
  description : Option String
  status : String
  owner_email : Option String
  due_date : Option String
deriving DecidableEq, Repr

/-- A `ProjectOut` pydantic model instance (response model). -/
structure ProjectOutM where
  name : String
  description : Option String
  status : String
  owner_email : Option String
  due_date : Option String
  id : String
  created_at : Option String
  updated_at : Option String
deriving DecidableEq, Repr

/-- Validation of the `name` field of `ProjectCreate`: a required string
of 1-120 characters (absence and `null` are rejected). -/
def vName : JField → Option String
  | some (some s) => if 1 ≤ s.length ∧ s.length ≤ 120 then some s else none
  | _ => none

/-- Validation of the `description` field: optional, at most 2000
characters when a string is given. -/
def vDesc : JField → Option (Option String)
  | some (some s) => if s.length ≤ 2000 then some (some s) else none
  | some none => some none
  | none => some none

/-- Validation of the `status` field of `ProjectCreate`: a plain `str`
defaulting to `"active"` when absent; an explicit `null` is rejected for
the non-optional field. -/
def vStatus : JField → Option String
  | some (some s) => some s
  | some none => none
  | none => some "active"

/-- Validation of an unconstrained `Optional[str]` field. -/
def vOpt : JField → Option (Option String)
  | some v => some v
  | none => some none

/-- Pydantic validation of `ProjectCreate` (`src/main.py` lines 55-60).
Returns `none` on a validation failure (HTTP 422). -/
def validateProjectCreate (b : ProjectCreateB) : Option ProjectCreateM :=
  (vName b.name).bind fun name =>
  (vDesc b.description).bind fun description =>
  (vStatus b.status).bind fun status =>
  (vOpt b.owner_email).bind fun owner_email =>
  (vOpt b.due_date).bind fun due_date =>
  some ⟨name, description, status, owner_email, due_date⟩

/-- Pydantic validation of `ProjectUpdate` (`src/main.py` lines 63-68):
every field is `Optional`, so an explicit `null` is accepted everywhere;
a string `name` must have 1-120 characters and a string `description` at
most 2000.  The validated model preserves which fields were set. -/
def validProjectUpdate (b : ProjectUpdateB) : Bool :=
  (match b.name with
    | some (some s) => decide (1 ≤ s.length ∧ s.length ≤ 120)
    | _ => true)
  && (match b.description with
    | some (some s) => decide (s.length ≤ 2000)
    | _ => true)

/-- An explicitly set optional-string field as a stored value: `null`
becomes the BSON null, a string stays a string. -/
def optStrToValue : Option String → Value
  | none => .vNull
  | some s => .vStr s

/-- One entry of `model_dump(exclude_unset=True)`: nothing if the field
was not set, otherwise the key with its (possibly null) value. -/
def fieldEntry (k : String) : JField → Doc
  | none => []
  | some v => [(k, optStrToValue v)]

/-- `payload.model_dump(exclude_unset=True)` for `ProjectUpdate`
(`src/main.py` line 146): the fields explicitly present in the request, in
declaration order, unset fields excluded. -/
def dumpExcludeUnset (p : ProjectUpdateB) : Doc :=
  fieldEntry "name" p.name ++ fieldEntry "description" p.description ++
    fieldEntry "status" p.status ++ fieldEntry "owner_email" p.owner_email ++
    fieldEntry "due_date" p.due_date

/-- The fields of an update body with their names, in declaration order;
a field explicitly present with the value null is an entry
`(name, some none)`. -/
def bodyFields (b : ProjectUpdateB) : List (String × JField) :=
  [("name", b.name), ("description", b.description), ("status", b.status),
   ("owner_email", b.owner_email), ("due_date", b.due_date)]

/-- Parse an optional-string field of `ProjectOut` from a serialized
document value (pydantic: absent or `null` gives `None`, a string within
the optional length bound gives the string, anything else fails). -/
def parseOptStr (v : Option Value) (maxLen : Option Nat) : Option (Option String) :=
  match v with
  | none => some none
  | some .vNull => some none
  | some (.vStr s) =>
    match maxLen with
    | some m => if s.length ≤ m then some (some s) else none
    | none => some (some s)
  | some _ => none

/-- Construction `ProjectOut(**d)` (`src/main.py` lines 71-74): inherits
the `ProjectCreate` field constraints, adds a required string `id` and
optional `created_at` / `updated_at` strings; unknown keys are ignored.
Returns `none` when pydantic raises, which FastAPI surfaces as a server
error, not a 4xx response. -/
def projectOutParse (d : Doc) : Option ProjectOutM := do
  let name ← match getVal "name" d with
    | some (.vStr s) => if 1 ≤ s.length ∧ s.length ≤ 120 then some s else none
    | _ => none
  let description ← parseOptStr (getVal "description" d) (some 2000)
  let status ← match getVal "status" d with
    | some (.vStr s) => some s
    | none => some "active"
    | _ => none
  let owner_email ← parseOptStr (getVal "owner_email" d) none
  let due_date ← parseOptStr (getVal "due_date" d) none
  let id ← match getVal "id" d with
    | some (.vStr s) => some s
    | _ => none
  let created_at ← parseOptStr (getVal "created_at" d) none
  let updated_at ← parseOptStr (getVal "updated_at" d) none
  some ⟨name, description, status, owner_email, due_date, id, created_at, updated_at⟩

/-! ### Store operations (black-box Mongo driver semantics) -/

/-- Whether a stored document has the given `_id`. -/
def hasId (d : Doc) (pid : String) : Bool :=
  decide (getVal "_id" d = some (.vOid pid))

/-- Mongo `find_one` on the id filter: first document with that `_id`. -/
def find_one (store : Store) (pid : String) : Option Doc :=
  store.find? fun d => hasId d pid

/-- Mongo `find_one_and_update` with a `$set` patch and
`return_document=True`: update the first document matching the id in
place and return the document after the update, or `none` when no
document matches. -/
def find_one_and_update : Store → String → Doc → Option Doc × Store
  | [], _, _ => (none, [])
  | d :: rest, pid, patch =>
    if hasId d pid then
      let d' := applySet d patch
      (some d', d' :: rest)
    else
      let r := find_one_and_update rest pid patch
      (r.1, d :: r.2)

/-- Mongo `delete_one` on the id filter: remove the first matching
document and report the deleted count (0 or 1). -/
def delete_one : Store → String → Nat × Store
  | [], _ => (0, [])
  | d :: rest, pid =>
    if hasId d pid then (1, rest)
    else
      let r := delete_one rest pid
      (r.1, d :: r.2)

/-- Modelled from the spec: `get_documents` lives in the `database` module,
which is not part of `src/`.  Per the Document Store Adapter contract it
"returns up to `limit` matching documents in store-native iteration
order"; the empty filter used by the list handler matches every document.
A non-positive limit is modelled as returning no documents. -/
def get_documents (store : Store) (limit : Int) : List Doc :=
  store.take limit.toNat

/-- The stored document created from a validated `ProjectCreate` payload:
the store-assigned `_id` followed by the payload fields and the
server-assigned `created_at`. -/
def docOfCreate (newId : String) (p : ProjectCreateM) (now : Nat) : Doc :=
  [("_id", .vOid newId), ("name", .vStr p.name),
   ("description", optStrToValue p.description), ("status", .vStr p.status),
   ("owner_email", optStrToValue p.owner_email),
   ("due_date", optStrToValue p.due_date), ("created_at", .vDatetime now)]

/-- Modelled from the spec: `create_document` lives in the `database`
module, which is not part of `src/`.  Per the Document Store Adapter
contract it "inserts `record` (with server-assigned `created_at` ...) into
`collection`, returns the newly assigned identifier"; the fresh identifier
and clock are parameters of the model. -/
def create_document (store : Store) (p : ProjectCreateM) (newId : String)
    (now : Nat) : Store × String :=
  (store ++ [docOfCreate newId p now], newId)

/-! ### Handlers -/

/-- A store operation performed by a handler; a handler that raises before
touching the store has an empty trace. -/
inductive StoreOp where
  | findOneAndUpdate (pid : String) (patch : Doc)
  | deleteOne (pid : String)
deriving DecidableEq, Repr

/-- The value a handler produces: an `HTTPException` with its status code
and detail, a serialized project (or list of projects), the delete
acknowledgement, or a response-model validation failure (a server error,
never a 4xx). -/
inductive Outcome where
  | httpError (status : Nat) (detail : String)
  | okProject (m : ProjectOutM)
  | okList (ms : List ProjectOutM)
  | okDelete
  | respError
deriving DecidableEq, Repr

/-- Build the response value `ProjectOut(**serialize_doc(res))`. -/
def mkProjectOut : Option Doc → Outcome
  | none => .respError
  | some d =>
    match projectOutParse d with
    | some m => .okProject m
    | none => .respError

/-- `update_project` (`src/main.py` lines 142-157).  Returns the response
value, the store after the request, and the trace of store operations.
`now` is the handler's `datetime.now(timezone.utc)`. -/
def update_project (pid : String) (payload : ProjectUpdateB) (now : Nat)
    (store : Store) : Outcome × Store × List StoreOp :=
  if ¬ objectId_is_valid pid then (.httpError 400 "Invalid project id", store, [])
  else
    let changes := dumpExcludeUnset payload
    if changes.isEmpty then (.httpError 400 "No changes provided", store, [])
    else
      let changes := setKey changes "updated_at" (.vDatetime now)
      let rs := find_one_and_update store pid changes
      let ops := [StoreOp.findOneAndUpdate pid changes]
      match rs.1 with
      | none => (.httpError 404 "Project not found", rs.2, ops)
      | some res =>
        if res.isEmpty then (.httpError 404 "Project not found", rs.2, ops)
        else (mkProjectOut (serialize_doc (some res)), rs.2, ops)

/-- The `PUT /api/projects/id` endpoint: FastAPI validates the body
against `ProjectUpdate` (422 on failure) before running the handler. -/
def put_project (pid : String) (body : ProjectUpdateB) (now : Nat)
    (store : Store) : Outcome × Store × List StoreOp :=
  if validProjectUpdate body then update_project pid body now store
  else (.httpError 422 "Unprocessable Entity", store, [])

/-- `delete_project` (`src/main.py` lines 160-167). -/
def delete_project (pid : String) (store : Store) :
    Outcome × Store × List StoreOp :=
  if ¬ objectId_is_valid pid then (.httpError 400 "Invalid project id", store, [])
  else
    let r := delete_one store pid
    if r.1 == 0 then (.httpError 404 "Project not found", r.2, [StoreOp.deleteOne pid])
    else (.okDelete, r.2, [StoreOp.deleteOne pid])

/-- `list_projects` (`src/main.py` lines 129-132).  The `limit` query
parameter defaults to 100 when absent. -/
def list_projects (limitParam : Option Int) (store : Store) : Outcome :=
  let limit := limitParam.getD 100
  let docs := get_documents store limit
  match docs.mapM (fun d =>
      match serialize_doc (some d) with
      | some s => projectOutParse s
      | none => none) with
  | some ms => .okList ms
  | none => .respError

/-- The `POST /api/projects` endpoint (`src/main.py` lines 135-139):
FastAPI validates the body against `ProjectCreate` (422 on failure), the
handler inserts via `create_document`, reads the document back with
`find_one` and serializes it. -/
def create_project (body : ProjectCreateB) (store : Store) (newId : String)
    (now : Nat) : Outcome × Store :=
  match validateProjectCreate body with
  | none => (.httpError 422 "Unprocessable Entity", store)
  | some payload =>
    let r := create_document store payload newId now
    (mkProjectOut (serialize_doc (find_one r.1 r.2)), r.1)

/-! ### Diagnostics endpoint -/

/-- The black-box database handle as the diagnostics endpoint sees it:
its `name` attribute when present, and the outcome of
`list_collection_names` (a list of names, or a raised exception rendered
as its message string). -/
structure DbHandle where
  dbName : Option String
  listCollectionNames : Except String (List String)
deriving Repr

/-- The response object of `GET /test`. -/
structure DiagResponse where
  backend : String
  database : String
  database_url : String
  database_name : String
  connection_status : String
  collections : List String
deriving DecidableEq, Repr

/-- Python string slicing `s[:n]` (by characters). -/
def strTake (s : String) (n : Nat) : String := String.mk (s.data.take n)

/-- Truthiness of an `os.getenv` result: `None` and the empty string are
falsy. -/
def envTruthy : Option String → Bool
  | none => false
  | some s => !s.isEmpty

/-- `test_database` (`src/main.py` lines 88-122).  `db?` is the global
`db` handle (`none` models `db is None`), `envUrl` / `envName` the values
of the `DATABASE_URL` / `DATABASE_NAME` environment variables.  Every
store failure is caught and rendered into the `database` field, truncated
to 50 characters; the environment checks at the end overwrite the
`database_url` / `database_name` fields unconditionally. -/
def test_database (db? : Option DbHandle) (envUrl envName : Option String) :
    DiagResponse :=
  let database := "❌ Not Available"
  let connection_status := "Not Connected"
  let collections : List String := []
  let st :=
    match db? with
    | some db =>
      let _database_url := "✅ Configured"
      let database_name :=
        match db.dbName with
        | some n => n
        | none => "✅ Connected"
      let connection_status := "Connected"
      match db.listCollectionNames with
      | .ok cols => ("✅ Connected & Working", database_name, connection_status, cols.take 10)
      | .error e =>
        ("⚠️  Connected but Error: " ++ strTake e 50, database_name, connection_status,
          collections)
    | none => ("⚠️  Available but not initialized", database, connection_status, collections)
  { backend := "✅ Running"
    database := st.1
    database_url := if envTruthy envUrl then "✅ Set" else "❌ Not Set"
    database_name := if envTruthy envName then "✅ Set" else "❌ Not Set"
    connection_status := st.2.2.1
    collections := st.2.2.2 }

/-! ### Lemmas about the patch built by the update handler -/

theorem getVal_append_of_none (a b : Doc) (k : String) (h : getVal k a = none) :
    getVal k (a ++ b) = getVal k b := by
  induction a with
  | nil => simp
  | cons p rest ih =>
    obtain ⟨k1, v1⟩ := p
    by_cases hp : k1 = k
    · simp [getVal, hp] at h
    · simp only [getVal, if_neg hp] at h
      simp [getVal, hp, ih h]

theorem mem_keysOf_fieldEntry (k key : String) (v : JField)
    (h : k ∈ keysOf (fieldEntry key v)) : k = key := by
  cases v with
  | none => simp [fieldEntry, keysOf] at h
  | some w => simpa [fieldEntry, keysOf] using h

theorem keysOf_append (a b : Doc) : keysOf (a ++ b) = keysOf a ++ keysOf b := by
  simp [keysOf]

theorem keysOf_dump_mem (p : ProjectUpdateB) (k : String)
    (h : k ∈ keysOf (dumpExcludeUnset p)) :
    k = "name" ∨ k = "description" ∨ k = "status" ∨ k = "owner_email" ∨
      k = "due_date" := by
  simp only [dumpExcludeUnset, keysOf_append, List.mem_append, or_assoc] at h
  rcases h with h | h | h | h | h
  · exact Or.inl (mem_keysOf_fieldEntry _ _ _ h)
  · exact Or.inr (Or.inl (mem_keysOf_fieldEntry _ _ _ h))
  · exact Or.inr (Or.inr (Or.inl (mem_keysOf_fieldEntry _ _ _ h)))
  · exact Or.inr (Or.inr (Or.inr (Or.inl (mem_keysOf_fieldEntry _ _ _ h))))
  · exact Or.inr (Or.inr (Or.inr (Or.inr (mem_keysOf_fieldEntry _ _ _ h))))

theorem updated_at_not_mem_dump (p : ProjectUpdateB) :
    "updated_at" ∉ keysOf (dumpExcludeUnset p) := by
  intro h
  rcases keysOf_dump_mem p _ h with h | h | h | h | h <;> revert h <;> decide

theorem id_not_mem_dump (p : ProjectUpdateB) :
    "_id" ∉ keysOf (dumpExcludeUnset p) := by
  intro h
  rcases keysOf_dump_mem p _ h with h | h | h | h | h <;> revert h <;> decide

/-- The patch that the update handler sends to the store: the explicitly
set fields followed by the server-assigned `updated_at`. -/
theorem changes_eq_append (p : ProjectUpdateB) (now : Nat) :
    setKey (dumpExcludeUnset p) "updated_at" (.vDatetime now) =
      dumpExcludeUnset p ++ [("updated_at", .vDatetime now)] :=
  setKey_eq_append_of_not_mem _ _ _ (updated_at_not_mem_dump p)

theorem dump_getVal (p : ProjectUpdateB) :
    getVal "name" (dumpExcludeUnset p) = p.name.map optStrToValue ∧
    getVal "description" (dumpExcludeUnset p) = p.description.map optStrToValue ∧
    getVal "status" (dumpExcludeUnset p) = p.status.map optStrToValue ∧
    getVal "owner_email" (dumpExcludeUnset p) = p.owner_email.map optStrToValue ∧
    getVal "due_date" (dumpExcludeUnset p) = p.due_date.map optStrToValue := by
  rcases p with ⟨n, de, st, ow, du⟩
  cases n <;> cases de <;> cases st <;> cases ow <;> cases du <;>
    simp [dumpExcludeUnset, fieldEntry, getVal]

theorem getVal_append_of_some (a b : Doc) (k : String) (v : Value)
    (h : getVal k a = some v) : getVal k (a ++ b) = some v := by
  induction a with
  | nil => simp [getVal] at h
  | cons p rest ih =>
    obtain ⟨k1, v1⟩ := p
    by_cases hp : k1 = k
    · simp only [getVal, if_pos hp] at h
      simp [getVal, hp, h]
    · simp only [getVal, if_neg hp] at h
      simp [getVal, hp, ih h]

theorem keysOf_fieldEntry_sublist (key : String) (v : JField) :
    List.Sublist (keysOf (fieldEntry key v)) [key] := by
  cases v <;> simp [fieldEntry, keysOf]

theorem keysOf_dump_nodup (b : ProjectUpdateB) :
    (keysOf (dumpExcludeUnset b)).Nodup := by
  have hsub : List.Sublist (keysOf (dumpExcludeUnset b))
      (["name"] ++ ["description"] ++ ["status"] ++ ["owner_email"] ++
        ["due_date"]) := by
    simp only [dumpExcludeUnset, keysOf_append]
    exact ((((keysOf_fieldEntry_sublist _ _).append
      (keysOf_fieldEntry_sublist _ _)).append
      (keysOf_fieldEntry_sublist _ _)).append
      (keysOf_fieldEntry_sublist _ _)).append
      (keysOf_fieldEntry_sublist _ _)
  exact List.Nodup.sublist hsub (by decide)

theorem getVal_applySet_of_some (patch : Doc) (d : Doc) (k : String) (v : Value)
    (h : getVal k patch = some v) (hnd : (keysOf patch).Nodup) :
    getVal k (applySet d patch) = some v := by
  induction patch generalizing d with
  | nil => simp [getVal] at h
  | cons p rest ih =>
    obtain ⟨k1, v1⟩ := p
    simp only [keysOf, List.map_cons, List.nodup_cons] at hnd
    have hstep : applySet d ((k1, v1) :: rest) = applySet (setKey d k1 v1) rest := rfl
    by_cases hp : k1 = k
    · subst hp
      simp only [getVal, if_pos rfl] at h
      have hv : v1 = v := by simpa using h
      subst hv
      rw [hstep, getVal_applySet_not_mem _ _ _ (by simpa [keysOf] using hnd.1)]
      exact getVal_setKey_self d k1 v1
    · simp only [getVal, if_neg hp] at h
      rw [hstep]
      exact ih (setKey d k1 v1) h (by simpa [keysOf] using hnd.2)

/-- A field explicitly present as null in the body appears as a null
entry of the `exclude_unset` dump, and is one of the five model fields. -/
theorem null_field_dump (b : ProjectUpdateB) (f : String)
    (h : (f, (some none : JField)) ∈ bodyFields b) :
    getVal f (dumpExcludeUnset b) = some Value.vNull ∧
    (f = "name" ∨ f = "description" ∨ f = "status" ∨ f = "owner_email" ∨
      f = "due_date") := by
  obtain ⟨h1, h2, h3, h4, h5⟩ := dump_getVal b
  simp only [bodyFields, List.mem_cons, List.not_mem_nil, or_false,
    Prod.mk.injEq] at h
  rcases h with ⟨hf, hv⟩ | ⟨hf, hv⟩ | ⟨hf, hv⟩ | ⟨hf, hv⟩ | ⟨hf, hv⟩
  · subst hf
    rw [h1, ← hv]
    exact ⟨rfl, Or.inl rfl⟩
  · subst hf
    rw [h2, ← hv]
    exact ⟨rfl, Or.inr (Or.inl rfl)⟩
  · subst hf
    rw [h3, ← hv]
    exact ⟨rfl, Or.inr (Or.inr (Or.inl rfl))⟩
  · subst hf
    rw [h4, ← hv]
    exact ⟨rfl, Or.inr (Or.inr (Or.inr (Or.inl rfl)))⟩
  · subst hf
    rw [h5, ← hv]
    exact ⟨rfl, Or.inr (Or.inr (Or.inr (Or.inr rfl)))⟩

/-! ### Lemmas about the store operations -/

theorem find_one_cons_pos (d : Doc) (rest : Store) (pid : String)
    (hd : hasId d pid = true) : find_one (d :: rest) pid = some d :=
  List.find?_cons_of_pos _ hd

theorem find_one_cons_neg (d : Doc) (rest : Store) (pid : String)
    (hd : ¬ hasId d pid = true) : find_one (d :: rest) pid = find_one rest pid :=
  List.find?_cons_of_neg _ (by simpa using hd)

theorem find_one_and_update_not_found (store : Store) (pid : String) (patch : Doc)
    (h : find_one store pid = none) :
    find_one_and_update store pid patch = (none, store) := by
  induction store with
  | nil => simp [find_one_and_update]
  | cons d rest ih =>
    by_cases hd : hasId d pid = true
    · rw [find_one_cons_pos _ _ _ hd] at h
      exact absurd h (by simp)
    · rw [find_one_cons_neg _ _ _ hd] at h
      simp [find_one_and_update, hd, ih h]

theorem find_one_and_update_found (store : Store) (pid : String) (patch : Doc)
    (pre : Doc) (hfind : find_one store pid = some pre)
    (hid : "_id" ∉ keysOf patch) :
    (find_one_and_update store pid patch).1 = some (applySet pre patch) ∧
    find_one (find_one_and_update store pid patch).2 pid =
      some (applySet pre patch) := by
  induction store with
  | nil => simp [find_one, List.find?] at hfind
  | cons d rest ih =>
    by_cases hd : hasId d pid = true
    · rw [find_one_cons_pos _ _ _ hd] at hfind
      have hpre : d = pre := by simpa using hfind
      subst hpre
      have hsame : hasId (applySet d patch) pid = true := by
        rw [hasId, decide_eq_true_iff, getVal_applySet_not_mem _ _ _ hid]
        rwa [hasId, decide_eq_true_iff] at hd
      constructor
      · simp [find_one_and_update, hd]
      · simp only [find_one_and_update, if_pos hd]
        exact find_one_cons_pos _ _ _ hsame
    · rw [find_one_cons_neg _ _ _ hd] at hfind
      have := ih hfind
      constructor
      · simp [find_one_and_update, hd, this.1]
      · simp only [find_one_and_update, if_neg hd]
        rw [find_one_cons_neg _ _ _ hd]
        exact this.2

theorem delete_one_not_found (store : Store) (pid : String)
    (h : find_one store pid = none) : delete_one store pid = (0, store) := by
  induction store with
  | nil => simp [delete_one]
  | cons d rest ih =>
    by_cases hd : hasId d pid = true
    · rw [find_one_cons_pos _ _ _ hd] at h
      exact absurd h (by simp)
    · rw [find_one_cons_neg _ _ _ hd] at h
      simp [delete_one, hd, ih h]

theorem delete_one_found (store : Store) (pid : String)
    (h : find_one store pid ≠ none) :
    (delete_one store pid).1 = 1 ∧
    (delete_one store pid).2.countP (fun d => hasId d pid) =
      store.countP (fun d => hasId d pid) - 1 := by
  induction store with
  | nil => simp [find_one, List.find?] at h
  | cons d rest ih =>
    by_cases hd : hasId d pid = true
    · simp [delete_one, hd, List.countP_cons, hd]
    · rw [find_one_cons_neg _ _ _ hd] at h
      have := ih h
      simp [delete_one, hd, List.countP_cons, this.1, this.2]

theorem find_one_eq_none_iff_countP (store : Store) (pid : String) :
    find_one store pid = none ↔
      store.countP (fun d => hasId d pid) = 0 := by
  rw [find_one, List.find?_eq_none, List.countP_eq_zero]

theorem find_one_append_right (a b : Store) (pid : String)
    (h : find_one a pid = none) : find_one (a ++ b) pid = find_one b pid := by
  induction a with
  | nil => simp
  | cons d rest ih =>
    by_cases hd : hasId d pid = true
    · rw [find_one_cons_pos _ _ _ hd] at h
      exact absurd h (by simp)
    · rw [find_one_cons_neg _ _ _ hd] at h
      rw [List.cons_append, find_one_cons_neg _ _ _ hd]
      exact ih h

/-! ### Unfolding the update handler on the success path -/

theorem id_not_mem_changes (body : ProjectUpdateB) (now : Nat) :
    "_id" ∉ keysOf (dumpExcludeUnset body ++ [("updated_at", Value.vDatetime now)]) := by
  rw [keysOf_append]
  intro hmem
  rcases List.mem_append.mp hmem with hm | hm
  · exact id_not_mem_dump body hm
  · revert hm; simp [keysOf]

theorem getVal_updated_at_applySet (pre : Doc) (body : ProjectUpdateB) (now : Nat) :
    getVal "updated_at"
      (applySet pre (dumpExcludeUnset body ++ [("updated_at", Value.vDatetime now)])) =
      some (Value.vDatetime now) := by
  rw [applySet_append]
  exact getVal_setKey_self _ _ _

theorem update_project_found (pid : String) (body : ProjectUpdateB) (now : Nat)
    (store : Store) (pre : Doc)
    (hvalid : objectId_is_valid pid = true)
    (hset : dumpExcludeUnset body ≠ [])
    (hfound : find_one store pid = some pre) :
    update_project pid body now store =
      (mkProjectOut (serialize_doc (some (applySet pre
          (dumpExcludeUnset body ++ [("updated_at", Value.vDatetime now)])))),
       (find_one_and_update store pid
          (dumpExcludeUnset body ++ [("updated_at", Value.vDatetime now)])).2,
       [StoreOp.findOneAndUpdate pid
          (dumpExcludeUnset body ++ [("updated_at", Value.vDatetime now)])]) := by
  have hfu := find_one_and_update_found store pid _ pre hfound (id_not_mem_changes body now)
  have hres_ne : applySet pre
      (dumpExcludeUnset body ++ [("updated_at", Value.vDatetime now)]) ≠ [] :=
    getVal_ne_nil _ _ _ (getVal_updated_at_applySet pre body now)
  have hne : (dumpExcludeUnset body).isEmpty = false := by
    simp [List.isEmpty_iff, hset]
  have hresE : (applySet pre
      (dumpExcludeUnset body ++ [("updated_at", Value.vDatetime now)])).isEmpty = false := by
    simp [List.isEmpty_iff, hres_ne]
  simp only [update_project, hvalid, hne, changes_eq_append, hfu.1, hresE]
  simp

theorem update_project_not_found (pid : String) (body : ProjectUpdateB) (now : Nat)
    (store : Store)
    (hvalid : objectId_is_valid pid = true)
    (hset : dumpExcludeUnset body ≠ [])
    (hnone : find_one store pid = none) :
    update_project pid body now store =
      (Outcome.httpError 404 "Project not found", store,
       [StoreOp.findOneAndUpdate pid
          (dumpExcludeUnset body ++ [("updated_at", Value.vDatetime now)])]) := by
  have hfu := find_one_and_update_not_found store pid
    (dumpExcludeUnset body ++ [("updated_at", Value.vDatetime now)]) hnone
  have hne : (dumpExcludeUnset body).isEmpty = false := by
    simp [List.isEmpty_iff, hset]
  simp only [update_project, hvalid, hne, changes_eq_append, hfu]
  simp

/-! ### Claim theorems -/

/-- A syntactically valid ObjectId string for concrete witnesses. -/
def validId : String := "0123456789abcdef01234567"

/-- A concrete stored project document. -/
def sampleDoc : Doc :=
  [("_id", Value.vOid validId), ("name", Value.vStr "Launch"),
   ("created_at", Value.vDatetime 5)]

/-- A concrete one-project store. -/
def sampleStore : Store := [sampleDoc]

/-- C1: for every existing project and every update request whose body
contains at least one explicitly present field, the update operation
changes only the fields present in the patch — every field of the stored
document that is not in the patch keeps its prior value — and the stored
document's `updated_at` is refreshed to the server's current UTC
timestamp (`now`). -/
theorem C1_update_changes_only_patch_fields (store : Store) (pid : String)
    (body : ProjectUpdateB) (now : Nat) (pre : Doc)
    (hvalid : objectId_is_valid pid = true)
    (hset : dumpExcludeUnset body ≠ [])
    (hfound : find_one store pid = some pre) :
    ∃ post,
      find_one (update_project pid body now store).2.1 pid = some post ∧
      post = applySet pre
        (dumpExcludeUnset body ++ [("updated_at", Value.vDatetime now)]) ∧
      (∀ k, k ∉ keysOf (dumpExcludeUnset body) → k ≠ "updated_at" →
        getVal k post = getVal k pre) ∧
      getVal "updated_at" post = some (Value.vDatetime now) := by
  have hfu := find_one_and_update_found store pid _ pre hfound (id_not_mem_changes body now)
  refine ⟨applySet pre (dumpExcludeUnset body ++ [("updated_at", Value.vDatetime now)]),
    ?_, rfl, ?_, getVal_updated_at_applySet pre body now⟩
  · rw [update_project_found pid body now store pre hvalid hset hfound]
    exact hfu.2
  · intro k hk hk2
    apply getVal_applySet_not_mem
    rw [keysOf_append]
    intro hmem
    rcases List.mem_append.mp hmem with hm | hm
    · exact hk hm
    · apply hk2
      simpa [keysOf] using hm

/-- C1 witness: a concrete update of the description field only. -/
theorem C1_witness :
    ∃ post,
      find_one (update_project validId ⟨none, some (some "docs"), none, none, none⟩ 7
          sampleStore).2.1 validId = some post ∧
      post = applySet sampleDoc
        (dumpExcludeUnset ⟨none, some (some "docs"), none, none, none⟩ ++
          [("updated_at", Value.vDatetime 7)]) ∧
      (∀ k, k ∉ keysOf (dumpExcludeUnset ⟨none, some (some "docs"), none, none, none⟩) →
        k ≠ "updated_at" → getVal k post = getVal k sampleDoc) ∧
      getVal "updated_at" post = some (Value.vDatetime 7) :=
  C1_update_changes_only_patch_fields sampleStore validId
    ⟨none, some (some "docs"), none, none, none⟩ 7 sampleDoc
    (by decide) (by decide) (by decide)

/-- C2: for every identifier string that is not a syntactically valid
24-hex-character ObjectId, the update and delete handlers both return
HTTP 400, the store is unchanged and the trace of store operations is
empty (the store is never reached). -/
theorem C2_invalid_id_never_reaches_store (pid : String) (body : ProjectUpdateB)
    (now : Nat) (store : Store) (h : objectId_is_valid pid = false) :
    update_project pid body now store =
      (Outcome.httpError 400 "Invalid project id", store, []) ∧
    delete_project pid store =
      (Outcome.httpError 400 "Invalid project id", store, []) := by
  constructor <;> simp [update_project, delete_project, h]

/-- C2 witness: the identifier string from the spec's scenario. -/
theorem C2_witness :
    update_project "not-an-id" ⟨some (some "x"), none, none, none, none⟩ 0 sampleStore =
      (Outcome.httpError 400 "Invalid project id", sampleStore, []) ∧
    delete_project "not-an-id" sampleStore =
      (Outcome.httpError 400 "Invalid project id", sampleStore, []) :=
  C2_invalid_id_never_reaches_store "not-an-id"
    ⟨some (some "x"), none, none, none, none⟩ 0 sampleStore (by decide)

/-- C3: the update handler builds its patch from exactly the fields
explicitly present in the request body (unset fields excluded, not
defaulted to null — each field key is in the patch iff the field was set,
with exactly the sent value), then appends the server-assigned
`updated_at` unconditionally; if the user-supplied portion of the patch is
empty the request is rejected with HTTP 400 with no store operation
performed. -/
theorem C3_patch_construction (pid : String) (body : ProjectUpdateB) (now : Nat)
    (store : Store) (hvalid : objectId_is_valid pid = true) :
    (dumpExcludeUnset body = [] →
      update_project pid body now store =
        (Outcome.httpError 400 "No changes provided", store, [])) ∧
    (dumpExcludeUnset body ≠ [] →
      (update_project pid body now store).2.2 =
        [StoreOp.findOneAndUpdate pid
          (dumpExcludeUnset body ++ [("updated_at", Value.vDatetime now)])]) ∧
    getVal "name" (dumpExcludeUnset body) = body.name.map optStrToValue ∧
    getVal "description" (dumpExcludeUnset body) = body.description.map optStrToValue ∧
    getVal "status" (dumpExcludeUnset body) = body.status.map optStrToValue ∧
    getVal "owner_email" (dumpExcludeUnset body) = body.owner_email.map optStrToValue ∧
    getVal "due_date" (dumpExcludeUnset body) = body.due_date.map optStrToValue := by
  obtain ⟨h1, h2, h3, h4, h5⟩ := dump_getVal body
  refine ⟨?_, ?_, h1, h2, h3, h4, h5⟩
  · intro hempty
    have hne : (dumpExcludeUnset body).isEmpty = true := by
      simp [List.isEmpty_iff, hempty]
    simp [update_project, hvalid, hne]
  · intro hset
    rcases hfo : find_one store pid with _ | pre
    · rw [update_project_not_found pid body now store hvalid hset hfo]
    · rw [update_project_found pid body now store pre hvalid hset hfo]

/-- C3 witness: the empty body is rejected with 400 and no store
operation; a body setting `name` only sends exactly that field plus
`updated_at`. -/
theorem C3_witness :
    update_project validId ⟨none, none, none, none, none⟩ 3 sampleStore =
      (Outcome.httpError 400 "No changes provided", sampleStore, []) ∧
    (update_project validId ⟨some (some "N"), none, none, none, none⟩ 3
        sampleStore).2.2 =
      [StoreOp.findOneAndUpdate validId
        (dumpExcludeUnset ⟨some (some "N"), none, none, none, none⟩ ++
          [("updated_at", Value.vDatetime 3)])] ∧
    getVal "name" (dumpExcludeUnset ⟨some (some "N"), none, none, none, none⟩) =
      (some (some "N") : JField).map optStrToValue ∧
    getVal "description" (dumpExcludeUnset ⟨some (some "N"), none, none, none, none⟩) =
      (none : JField).map optStrToValue :=
  ⟨(C3_patch_construction validId ⟨none, none, none, none, none⟩ 3 sampleStore
      (by decide)).1 (by decide),
   (C3_patch_construction validId ⟨some (some "N"), none, none, none, none⟩ 3
      sampleStore (by decide)).2.1 (by decide),
   (C3_patch_construction validId ⟨some (some "N"), none, none, none, none⟩ 3
      sampleStore (by decide)).2.2.1,
   (C3_patch_construction validId ⟨some (some "N"), none, none, none, none⟩ 3
      sampleStore (by decide)).2.2.2.1⟩

/-- C4: with a well-formed identifier that matches no stored document,
the update handler (with a non-empty patch) and the delete handler both
return HTTP 404; and when exactly one document has the identifier, delete
succeeds once and the second delete of the same id returns 404 (idempotent
in effect). -/
theorem C4_not_found_and_idempotent_delete (store : Store) (pid : String)
    (body : ProjectUpdateB) (now : Nat)
    (hvalid : objectId_is_valid pid = true) :
    (find_one store pid = none →
      (dumpExcludeUnset body ≠ [] →
        (update_project pid body now store).1 =
          Outcome.httpError 404 "Project not found") ∧
      delete_project pid store =
        (Outcome.httpError 404 "Project not found", store, [StoreOp.deleteOne pid])) ∧
    (store.countP (fun d => hasId d pid) = 1 →
      (delete_project pid store).1 = Outcome.okDelete ∧
      (delete_project pid (delete_project pid store).2.1).1 =
        Outcome.httpError 404 "Project not found") := by
  constructor
  · intro hnone
    constructor
    · intro hset
      rw [update_project_not_found pid body now store hvalid hset hnone]
    · have hdel := delete_one_not_found store pid hnone
      simp [delete_project, hvalid, hdel]
  · intro hone
    have hne : find_one store pid ≠ none := by
      intro hcontra
      rw [find_one_eq_none_iff_countP] at hcontra
      omega
    have hdel := delete_one_found store pid hne
    have hzero : (delete_one store pid).2.countP (fun d => hasId d pid) = 0 := by
      rw [hdel.2, hone]
    have hnone2 : find_one (delete_one store pid).2 pid = none :=
      (find_one_eq_none_iff_countP _ _).mpr hzero
    have hfirst : delete_project pid store =
        (Outcome.okDelete, (delete_one store pid).2, [StoreOp.deleteOne pid]) := by
      simp [delete_project, hvalid, hdel.1]
    refine ⟨by rw [hfirst], ?_⟩
    rw [hfirst]
    have hdel2 := delete_one_not_found (delete_one store pid).2 pid hnone2
    simp [delete_project, hvalid, hdel2]

/-- C4 witness: on the empty store, update and delete of a valid id give
404; on the sample store the first delete succeeds and the second delete
of the same id gives 404. -/
theorem C4_witness :
    (update_project validId ⟨some (some "x"), none, none, none, none⟩ 2 []).1 =
      Outcome.httpError 404 "Project not found" ∧
    delete_project validId [] =
      (Outcome.httpError 404 "Project not found", [], [StoreOp.deleteOne validId]) ∧
    (delete_project validId sampleStore).1 = Outcome.okDelete ∧
    (delete_project validId (delete_project validId sampleStore).2.1).1 =
      Outcome.httpError 404 "Project not found" :=
  ⟨((C4_not_found_and_idempotent_delete [] validId
      ⟨some (some "x"), none, none, none, none⟩ 2 (by decide)).1 (by decide)).1
      (by decide),
   ((C4_not_found_and_idempotent_delete [] validId
      ⟨some (some "x"), none, none, none, none⟩ 2 (by decide)).1 (by decide)).2,
   ((C4_not_found_and_idempotent_delete sampleStore validId
      ⟨some (some "x"), none, none, none, none⟩ 2 (by decide)).2 (by decide)).1,
   ((C4_not_found_and_idempotent_delete sampleStore validId
      ⟨some (some "x"), none, none, none, none⟩ 2 (by decide)).2 (by decide)).2⟩

/-- The update body whose only content is an explicit `name: null`. -/
def nameNullBody : ProjectUpdateB := ⟨some none, none, none, none, none⟩

/-- C9: for every update request body (accepted by the `ProjectUpdate`
validation) in which some field is explicitly present with the value
null, that field makes the dumped patch non-empty so no 400 is raised,
the null value is included in the `$set` patch written to the store, and
the stored document ends up holding null in that field; `vName (some
none) = none` records that a null `name` is rejected at creation time. -/
theorem C9_explicit_null_overwrites (pid : String) (store : Store) (now : Nat)
    (pre : Doc) (body : ProjectUpdateB) (f : String)
    (hvalid : objectId_is_valid pid = true)
    (hfound : find_one store pid = some pre)
    (hval : validProjectUpdate body = true)
    (hnull : (f, (some none : JField)) ∈ bodyFields body) :
    dumpExcludeUnset body ≠ [] ∧
    (∀ s, (put_project pid body now store).1 ≠ Outcome.httpError 400 s) ∧
    getVal f (dumpExcludeUnset body ++ [("updated_at", Value.vDatetime now)]) =
      some Value.vNull ∧
    (put_project pid body now store).2.2 =
      [StoreOp.findOneAndUpdate pid
        (dumpExcludeUnset body ++ [("updated_at", Value.vDatetime now)])] ∧
    (∃ post,
      find_one (put_project pid body now store).2.1 pid = some post ∧
      getVal f post = some Value.vNull) ∧
    vName (some none) = none := by
  obtain ⟨hdumpf, hfive⟩ := null_field_dump body f hnull
  have hfupd : f ≠ "updated_at" := by
    rcases hfive with h | h | h | h | h <;> subst h <;> decide
  have hset : dumpExcludeUnset body ≠ [] := getVal_ne_nil _ _ _ hdumpf
  have hput : put_project pid body now store = update_project pid body now store := by
    simp [put_project, hval]
  have heq := update_project_found pid body now store pre hvalid hset hfound
  have hfu := find_one_and_update_found store pid _ pre hfound
    (id_not_mem_changes body now)
  refine ⟨hset, ?_, getVal_append_of_some _ _ _ _ hdumpf, ?_, ?_, rfl⟩
  · intro s
    rw [hput, heq]
    rcases hs : serialize_doc (some (applySet pre
        (dumpExcludeUnset body ++ [("updated_at", Value.vDatetime now)]))) with
      _ | sd
    · simp [mkProjectOut, hs]
    · rcases hpp : projectOutParse sd with _ | m <;> simp [mkProjectOut, hs, hpp]
  · rw [hput, heq]
  · refine ⟨applySet pre (dumpExcludeUnset body ++
      [("updated_at", Value.vDatetime now)]), ?_, ?_⟩
    · rw [hput, heq]
      exact hfu.2
    · rw [applySet_append]
      have h1 : getVal f (applySet pre (dumpExcludeUnset body)) = some Value.vNull :=
        getVal_applySet_of_some _ _ _ _ hdumpf (keysOf_dump_nodup body)
      have h2 : getVal f (setKey (applySet pre (dumpExcludeUnset body))
          "updated_at" (Value.vDatetime now)) =
          getVal f (applySet pre (dumpExcludeUnset body)) :=
        getVal_setKey_ne _ _ _ _ hfupd
      exact h2.trans h1

/-- C9 witness: the body that is exactly `name: null` applied to the
sample store — the stored `name` becomes null. -/
theorem C9_witness :
    dumpExcludeUnset nameNullBody ≠ [] ∧
    (∀ s, (put_project validId nameNullBody 9 sampleStore).1 ≠
      Outcome.httpError 400 s) ∧
    getVal "name" (dumpExcludeUnset nameNullBody ++
      [("updated_at", Value.vDatetime 9)]) = some Value.vNull ∧
    (put_project validId nameNullBody 9 sampleStore).2.2 =
      [StoreOp.findOneAndUpdate validId
        (dumpExcludeUnset nameNullBody ++ [("updated_at", Value.vDatetime 9)])] ∧
    (∃ post,
      find_one (put_project validId nameNullBody 9 sampleStore).2.1 validId =
        some post ∧
      getVal "name" post = some Value.vNull) ∧
    vName (some none) = none :=
  C9_explicit_null_overwrites validId sampleStore 9 sampleDoc nameNullBody "name"
    (by decide) (by decide) (by decide) (by decide)

/-- C5: `serialize_doc` returns an empty or absent document unchanged;
on a document with an ObjectId `_id` (keys unique, as in a Python dict)
the `_id` field is renamed to `id` and rendered as its string form, and
every other field passes through `convertVal` — a value exposing a
date/time representation becomes its ISO-8601 string, all other values
are unchanged. -/
theorem C5_serialize_doc_shape (doc : Doc) (oid : String) :
    serialize_doc none = none ∧
    serialize_doc (some []) = some [] ∧
    ((keysOf doc).Nodup → getVal "_id" doc = some (Value.vOid oid) →
      ∃ out, serialize_doc (some doc) = some out ∧
        getVal "id" out = some (Value.vStr oid) ∧
        getVal "_id" out = none ∧
        (∀ k, k ≠ "_id" → k ≠ "id" →
          getVal k out = (getVal k doc).map convertVal)) := by
  refine ⟨rfl, rfl, ?_⟩
  intro hnd hid
  have hdne : doc ≠ [] := getVal_ne_nil doc "_id" _ hid
  have hne : doc.isEmpty = false := by simp [List.isEmpty_iff, hdne]
  have hcore : serializeCore doc =
      (setKey (eraseKey "_id" doc) "id" (Value.vStr oid)).map
        (fun p => (p.1, convertVal p.2)) := by
    simp [serializeCore, hid, pyStr]
  refine ⟨serializeCore doc, by simp [serialize_doc, hne], ?_, ?_, ?_⟩
  · rw [hcore, getVal_map_convert, getVal_setKey_self]
    simp [convertVal]
  · rw [hcore, getVal_map_convert, getVal_setKey_ne _ _ _ _ (by decide),
      getVal_eraseKey_self _ _ hnd]
    rfl
  · intro k hk1 hk2
    rw [hcore, getVal_map_convert, getVal_setKey_ne _ _ _ _ hk2,
      getVal_eraseKey_ne _ _ _ hk1]

/-- C5 witness: the sample document with an id, a plain string and a
datetime field. -/
theorem C5_witness :
    serialize_doc none = none ∧
    serialize_doc (some []) = some [] ∧
    ∃ out, serialize_doc (some sampleDoc) = some out ∧
      getVal "id" out = some (Value.vStr validId) ∧
      getVal "_id" out = none ∧
      (∀ k, k ≠ "_id" → k ≠ "id" →
        getVal k out = (getVal k sampleDoc).map convertVal) :=
  ⟨(C5_serialize_doc_shape sampleDoc validId).1,
   (C5_serialize_doc_shape sampleDoc validId).2.1,
   (C5_serialize_doc_shape sampleDoc validId).2.2 (by decide) (by decide)⟩

/-- C6: a create body violating the `ProjectCreate` bounds — `name`
absent, null, or outside 1-120 characters, or `description` longer than
2000 characters — is rejected with 422; when validation succeeds with
`status` omitted, the validated model and the freshly stored project both
carry the default status `"active"`. -/
theorem C6_create_validation_and_default (b : ProjectCreateB) (store : Store)
    (newId : String) (now : Nat) :
    ((b.name = none ∨ b.name = some none ∨
        (∃ s, b.name = some (some s) ∧ (s.length < 1 ∨ 120 < s.length)) ∨
        (∃ s, b.description = some (some s) ∧ 2000 < s.length)) →
      create_project b store newId now =
        (Outcome.httpError 422 "Unprocessable Entity", store)) ∧
    (∀ m, validateProjectCreate b = some m → b.status = none →
      m.status = "active" ∧
      (find_one store newId = none →
        ∃ doc, find_one (create_project b store newId now).2 newId = some doc ∧
          getVal "status" doc = some (Value.vStr "active"))) := by
  constructor
  · intro hdisj
    have hv : validateProjectCreate b = none := by
      rcases hdisj with h | h | ⟨s, h, hlen⟩ | ⟨s, h, hlen⟩
      · simp [validateProjectCreate, vName, h]
      · simp [validateProjectCreate, vName, h]
      · have hcond : ¬ (1 ≤ s.length ∧ s.length ≤ 120) := by omega
        simp [validateProjectCreate, vName, h, hcond]
      · have hcond : ¬ s.length ≤ 2000 := by omega
        have hdesc : vDesc b.description = none := by simp [vDesc, h, hcond]
        rcases hn : vName b.name with _ | s2
        · simp [validateProjectCreate, hn]
        · simp [validateProjectCreate, hn, hdesc]
    simp [create_project, hv]
  · intro m hm hstatus
    have hmstatus : m.status = "active" := by
      simp only [validateProjectCreate, hstatus, vStatus, Option.some_bind,
        Option.bind_eq_some, Option.some.injEq] at hm
      obtain ⟨name, h1, desc, h2, ow, h3, du, h4, hm⟩ := hm
      subst hm
      rfl
    refine ⟨hmstatus, ?_⟩
    intro hfresh
    have hcre : (create_project b store newId now).2 =
        store ++ [docOfCreate newId m now] := by
      simp [create_project, hm, create_document]
    have hfind : find_one (store ++ [docOfCreate newId m now]) newId =
        some (docOfCreate newId m now) := by
      rw [find_one_append_right _ _ _ hfresh]
      apply find_one_cons_pos
      exact decide_eq_true (by simp [docOfCreate, getVal])
    refine ⟨docOfCreate newId m now, by rw [hcre, hfind], ?_⟩
    simp [docOfCreate, getVal, hmstatus]

/-- C6 witness: a null name is rejected with 422; the scenario body
`name = Launch` validates with default status `"active"`, stored as
such. -/
theorem C6_witness :
    create_project ⟨some none, none, none, none, none⟩ [] validId 1 =
      (Outcome.httpError 422 "Unprocessable Entity", []) ∧
    (⟨"Launch", none, "active", none, none⟩ : ProjectCreateM).status = "active" ∧
    ∃ doc, find_one (create_project ⟨some (some "Launch"), none, none, none, none⟩
        [] validId 1).2 validId = some doc ∧
      getVal "status" doc = some (Value.vStr "active") := by
  have h2 := (C6_create_validation_and_default
    ⟨some (some "Launch"), none, none, none, none⟩ [] validId 1).2
    ⟨"Launch", none, "active", none, none⟩ (by decide) rfl
  exact ⟨(C6_create_validation_and_default ⟨some none, none, none, none, none⟩
      [] validId 1).1 (Or.inr (Or.inl rfl)),
    h2.1, h2.2 (by decide)⟩

/-- C7: the diagnostics endpoint is total on every modelled store
behaviour — an error raised by the store while listing collections is
caught and reported inside the 200 response body as the message truncated
to at most 50 characters, and the `collections` field always holds at
most the first 10 collection names known to the store. -/
theorem C7_diagnostics_degrades (db? : Option DbHandle)
    (envUrl envName : Option String) :
    (test_database db? envUrl envName).collections.length ≤ 10 ∧
    (∀ db cols, db? = some db → db.listCollectionNames = Except.ok cols →
      (test_database db? envUrl envName).collections = cols.take 10) ∧
    (∀ db e, db? = some db → db.listCollectionNames = Except.error e →
      (test_database db? envUrl envName).database =
        "⚠️  Connected but Error: " ++ strTake e 50 ∧
      (strTake e 50).length ≤ 50) := by
  refine ⟨?_, ?_, ?_⟩
  · rcases db? with _ | db
    · simp [test_database]
    · rcases hc : db.listCollectionNames with e | cols
      · simp [test_database, hc]
      · simp only [test_database, hc]
        exact List.length_take_le _ _
  · intro db cols hdb hc
    subst hdb
    simp [test_database, hc]
  · intro db e hdb hc
    subst hdb
    refine ⟨by simp [test_database, hc], ?_⟩
    show (e.data.take 50).length ≤ 50
    exact List.length_take_le _ _

/-- A collection-listing error message longer than 50 characters. -/
def longErr : String :=
  "connection refused while listing collections: timeout after 30000 ms"

/-- C7 witness: a store raising a long error is reported truncated, and a
working store lists its collections (at most 10). -/
theorem C7_witness :
    (test_database (some ⟨some "appdb", Except.error longErr⟩) none none).database =
      "⚠️  Connected but Error: " ++ strTake longErr 50 ∧
    (strTake longErr 50).length ≤ 50 ∧
    (test_database (some ⟨some "appdb", Except.ok ["a", "b", "c"]⟩) (some "u")
        (some "n")).collections = ["a", "b", "c"].take 10 ∧
    (test_database (some ⟨some "appdb", Except.error longErr⟩) none
        none).collections.length ≤ 10 :=
  ⟨((C7_diagnostics_degrades (some ⟨some "appdb", Except.error longErr⟩) none
      none).2.2 _ _ rfl rfl).1,
   ((C7_diagnostics_degrades (some ⟨some "appdb", Except.error longErr⟩) none
      none).2.2 _ _ rfl rfl).2,
   (C7_diagnostics_degrades (some ⟨some "appdb", Except.ok ["a", "b", "c"]⟩)
      (some "u") (some "n")).2.1 _ _ rfl rfl,
   (C7_diagnostics_degrades (some ⟨some "appdb", Except.error longErr⟩) none
      none).1⟩

/-- C8: the list endpoint uses limit 100 when the query parameter is
absent and returns 200 with the (possibly empty) array of serialized
projects fetched from the store with that limit. -/
theorem C8_list_default_limit (store : Store) (ms : List ProjectOutM)
    (h : (store.take 100).mapM (fun d =>
        match serialize_doc (some d) with
        | some s => projectOutParse s
        | none => none) = some ms) :
    list_projects none store = Outcome.okList ms ∧
    list_projects none store = list_projects (some 100) store ∧
    get_documents store 100 = store.take 100 := by
  refine ⟨?_, rfl, rfl⟩
  have hdocs : get_documents store ((none : Option Int).getD 100) = store.take 100 := rfl
  simp only [list_projects, hdocs, h]

/-- C8 witness: the one-project sample store and the empty limit
parameter. -/
theorem C8_witness :
    list_projects none sampleStore =
      Outcome.okList [⟨"Launch", none, "active", none, none, validId,
        some (isoformatOf 5), none⟩] ∧
    list_projects none sampleStore = list_projects (some 100) sampleStore ∧
    get_documents sampleStore 100 = sampleStore.take 100 :=
  C8_list_default_limit sampleStore
    [⟨"Launch", none, "active", none, none, validId, some (isoformatOf 5), none⟩]
    (by decide)

/-- C10 as stated is false: with `DATABASE_URL` set to the empty string
the environment variable is set, yet the endpoint reports `❌ Not Set`
(the code tests Python truthiness of `os.getenv`, not presence). -/
theorem C10_counterexample :
    (some "" : Option String).isSome = true ∧
    (test_database none (some "") (some "x")).database_url = "❌ Not Set" ∧
    (test_database none (some "") (some "x")).database_url ≠ "✅ Set" := by
  refine ⟨rfl, rfl, ?_⟩
  decide

/-- C10 (amended): in every diagnostics response the `database_url` and
`database_name` fields are `✅ Set` or `❌ Not Set` determined solely by
whether the corresponding environment variable is set to a non-empty
string, independent of the store state and overwriting any value assigned
to those fields during the connection check. -/
theorem C10_env_flags_overwrite (db? : Option DbHandle)
    (envUrl envName : Option String) :
    (test_database db? envUrl envName).database_url =
      (if envTruthy envUrl then "✅ Set" else "❌ Not Set") ∧
    (test_database db? envUrl envName).database_name =
      (if envTruthy envName then "✅ Set" else "❌ Not Set") :=
  ⟨rfl, rfl⟩

end SaaS

